import Mathlib

/-!
A shallow embedding of the local persistence and sync-state core of the
repository: the entity schema (`products`, `sales` tables with soft-delete
and sync-status columns), the repository operations of
`src/repositories/sales.repo.ts` and `src/repositories/products.repo.ts`,
the database client of `src/db/client.ts`, the sales service of
`src/services/sales.service.ts`, and (modelled from the spec, since the
source leaves sync as a stub) the reconciliation protocol of spec §4.4.

Tables are lists of rows.  SQL `UPDATE ... WHERE id = ?` maps over all rows
whose `id` matches; `DELETE ... WHERE id = ?` filters them out;
`SELECT ... WHERE p LIMIT 1` is `(filter p).head?`.  Timestamps
(`new Date().toISOString()` / SQLite `datetime('now')`) are abstracted as a
`Nat` parameter `now` supplied at each call, ordered as the wall clock is.
JavaScript numbers are rationals together with an explicit round-to-nearest
binary64 step where the program computes.
-/

namespace Artizan

/-- `SyncStatus` from `db/schema.ts`: `'pending' | 'synced'`. -/
inductive SyncStatus where
  | pending
  | synced
deriving DecidableEq, Repr

/-- A row of the `sales` table (`db/schema.ts`): columns in schema order. -/
structure Sale where
  id : String
  product_id : String
  quantity : Int
  total : Rat
  created_at : Nat
  updated_at : Nat
  deleted_at : Option Nat
  sync_status : SyncStatus
deriving DecidableEq, Repr

/-- A row of the `products` table (`db/schema.ts`). -/
structure Product where
  id : String
  name : String
  price : Rat
  created_at : Nat
  updated_at : Nat
  deleted_at : Option Nat
  sync_status : SyncStatus
deriving DecidableEq, Repr

/-- Errors of §7 of the spec that the embedded code can raise. -/
inductive RepoError where
  | NotFound
  | ConstraintViolation
  | NotReady
  | InitFailed
  | ValidationError
deriving DecidableEq, Repr

/-! ## IEEE-754 binary64 rounding (JavaScript number arithmetic)

`real` columns and JavaScript numbers hold binary64 values.  We embed the
values as rationals and make the rounding of each arithmetic result
explicit: `toB64 q` is the nearest binary64 value to `q` (round half to
even), valid on the normal, non-overflowing range the program uses. -/

/-- Round a rational to the nearest integer, ties to even. -/
def roundHalfEven (q : Rat) : Int :=
  let n := ⌊q⌋
  let f := q - n
  if f < 1/2 then n
  else if 1/2 < f then n + 1
  else if n % 2 = 0 then n else n + 1

/-- Multiply a rational by `2 ^ k` for `k : Int`. -/
def scale2 (q : Rat) (k : Int) : Rat :=
  if 0 ≤ k then q * (2 : Rat) ^ k.toNat else q / (2 : Rat) ^ (-k).toNat

/-- Nearest binary64 value to a positive rational: keep 53 significant bits,
round half to even. -/
def toB64pos (q : Rat) : Rat :=
  let e : Int := Int.log 2 q
  scale2 (roundHalfEven (scale2 q (52 - e)) : Rat) (e - 52)

/-- Nearest binary64 value to a rational (normal range; no
overflow/subnormal handling, which the program never reaches). -/
def toB64 (q : Rat) : Rat :=
  if q = 0 then 0
  else if 0 < q then toB64pos q
  else -toB64pos (-q)

/-- JavaScript `*` on numbers: exact product, rounded to binary64. -/
def fpMul (a b : Rat) : Rat := toB64 (a * b)

/-! ## Sales repository (`src/repositories/sales.repo.ts`) -/

/-- Input of `createSale`:
`Omit<NewSale, 'id' | 'created_at' | 'updated_at' | 'deleted_at' | 'sync_status'>`. -/
structure NewSaleData where
  product_id : String
  quantity : Int
  total : Rat
deriving DecidableEq, Repr

/-- Input of `updateSale`: `Partial<Omit<Sale, 'id' | 'created_at' | 'deleted_at'>>`.
The TypeScript type admits `updated_at` and `sync_status` keys, but the
`.set({...data, updated_at: ..., sync_status: 'pending'})` object spread
always overrides them, so they never reach the row. -/
structure SaleUpdateData where
  product_id : Option String
  quantity : Option Int
  total : Option Rat
  updated_at : Option Nat
  sync_status : Option SyncStatus
deriving DecidableEq, Repr

/-- The row produced by `updateSale`'s
`.set({ ...data, updated_at: new Date().toISOString(), sync_status: 'pending' })`:
the partial fields merge into the row, then the two explicit keys override
whatever `data` carried for them. -/
def Sale.applyUpdate (s : Sale) (d : SaleUpdateData) (now : Nat) : Sale :=
  { s with
    product_id := d.product_id.getD s.product_id
    quantity := d.quantity.getD s.quantity
    total := d.total.getD s.total
    updated_at := now
    sync_status := .pending }

/-- `getSaleById(id, includeDeleted)`: `SELECT ... WHERE ... LIMIT 1`; the
strict (default) branch adds `deleted_at IS NULL` to the filter. -/
def getSaleById (tbl : List Sale) (i : String) (includeDeleted : Bool) : Option Sale :=
  if includeDeleted then
    (tbl.filter (fun s => decide (s.id = i))).head?
  else
    (tbl.filter (fun s => decide (s.id = i ∧ s.deleted_at = none))).head?

/-- `createSale(data)`: `INSERT` a row `{id: uuid.v4(), ...data,
sync_status: 'pending'}` (the omitted columns take the schema defaults
`created_at = updated_at = datetime('now')`, `deleted_at = NULL`), then
re-read the row by its id.  `newId` stands for the generated UUID; the
`INSERT` fails on a primary-key collision. -/
def createSale (tbl : List Sale) (newId : String) (data : NewSaleData) (now : Nat) :
    List Sale × Except RepoError Sale :=
  if tbl.any (fun s => decide (s.id = newId)) then
    (tbl, .error .ConstraintViolation)
  else
    let row : Sale :=
      { id := newId, product_id := data.product_id, quantity := data.quantity
        total := data.total, created_at := now, updated_at := now
        deleted_at := none, sync_status := .pending }
    let tbl' := tbl ++ [row]
    (tbl', match (tbl'.filter (fun s => decide (s.id = newId))).head? with
           | some s => .ok s
           | none => .error .NotFound)

/-- `updateSale(id, data)`: `UPDATE ... WHERE id = ?` (note: no
`deleted_at IS NULL` in the `WHERE` clause), then a strict `getSaleById`;
`throw new Error(...not found after update)` when that re-read is empty. -/
def updateSale (tbl : List Sale) (i : String) (d : SaleUpdateData) (now : Nat) :
    List Sale × Except RepoError Sale :=
  let tbl' := tbl.map (fun s => if s.id = i then s.applyUpdate d now else s)
  (tbl', match getSaleById tbl' i false with
         | some s => .ok s
         | none => .error .NotFound)

/-- `deleteSale(id)`: soft delete — `UPDATE ... SET deleted_at = now,
updated_at = now, sync_status = 'pending' WHERE id = ?`. -/
def deleteSale (tbl : List Sale) (i : String) (now : Nat) : List Sale :=
  tbl.map (fun s =>
    if s.id = i then
      { s with deleted_at := some now, updated_at := now, sync_status := .pending }
    else s)

/-- `hardDeleteSale(id)`: `DELETE FROM sales WHERE id = ?`. -/
def hardDeleteSale (tbl : List Sale) (i : String) : List Sale :=
  tbl.filter (fun s => decide (s.id ≠ i))

/-- `getAllSales()`: `SELECT ... WHERE deleted_at IS NULL`. -/
def getAllSales (tbl : List Sale) : List Sale :=
  tbl.filter (fun s => decide (s.deleted_at = none))

/-- `getUnsyncedSales()`: `SELECT ... WHERE sync_status = 'pending'`. -/
def getUnsyncedSales (tbl : List Sale) : List Sale :=
  tbl.filter (fun s => decide (s.sync_status = .pending))

/-- `markSaleAsSynced(id)`: `UPDATE ... SET sync_status = 'synced'
WHERE id = ?` (no other column in the `SET` clause). -/
def markSaleAsSynced (tbl : List Sale) (i : String) : List Sale :=
  tbl.map (fun s => if s.id = i then { s with sync_status := .synced } else s)

/-! ## Products repository (`src/repositories/products.repo.ts`) -/

/-- Input of `createProduct`: `Omit<NewProduct, 'id' | 'created_at' |
'updated_at' | 'deleted_at' | 'sync_status'>`. -/
structure NewProductData where
  name : String
  price : Rat
deriving DecidableEq, Repr

/-- Input of `updateProduct`: `Partial<Omit<Product, 'id' | 'created_at' |
'deleted_at'>>`; as for sales, `updated_at` / `sync_status` entries are
overridden by the explicit keys of the `.set` object. -/
structure ProductUpdateData where
  name : Option String
  price : Option Rat
  updated_at : Option Nat
  sync_status : Option SyncStatus
deriving DecidableEq, Repr

/-- The row produced by `updateProduct`'s `.set` object spread. -/
def Product.applyUpdate (p : Product) (d : ProductUpdateData) (now : Nat) : Product :=
  { p with
    name := d.name.getD p.name
    price := d.price.getD p.price
    updated_at := now
    sync_status := .pending }

/-- `getProductById(id, includeDeleted)`. -/
def getProductById (tbl : List Product) (i : String) (includeDeleted : Bool) : Option Product :=
  if includeDeleted then
    (tbl.filter (fun p => decide (p.id = i))).head?
  else
    (tbl.filter (fun p => decide (p.id = i ∧ p.deleted_at = none))).head?

/-- `createProduct(data)`: insert with generated id and schema defaults,
then re-read by id. -/
def createProduct (tbl : List Product) (newId : String) (data : NewProductData) (now : Nat) :
    List Product × Except RepoError Product :=
  if tbl.any (fun p => decide (p.id = newId)) then
    (tbl, .error .ConstraintViolation)
  else
    let row : Product :=
      { id := newId, name := data.name, price := data.price
        created_at := now, updated_at := now
        deleted_at := none, sync_status := .pending }
    let tbl' := tbl ++ [row]
    (tbl', match (tbl'.filter (fun p => decide (p.id = newId))).head? with
           | some p => .ok p
           | none => .error .NotFound)

/-- `updateProduct(id, data)`: unguarded `UPDATE ... WHERE id = ?`, then a
strict `getProductById` with a throw when it is empty. -/
def updateProduct (tbl : List Product) (i : String) (d : ProductUpdateData) (now : Nat) :
    List Product × Except RepoError Product :=
  let tbl' := tbl.map (fun p => if p.id = i then p.applyUpdate d now else p)
  (tbl', match getProductById tbl' i false with
         | some p => .ok p
         | none => .error .NotFound)

/-- `deleteProduct(id)`: soft delete. -/
def deleteProduct (tbl : List Product) (i : String) (now : Nat) : List Product :=
  tbl.map (fun p =>
    if p.id = i then
      { p with deleted_at := some now, updated_at := now, sync_status := .pending }
    else p)

/-- `hardDeleteProduct(id)`. -/
def hardDeleteProduct (tbl : List Product) (i : String) : List Product :=
  tbl.filter (fun p => decide (p.id ≠ i))

/-- `getAllProducts()`. -/
def getAllProducts (tbl : List Product) : List Product :=
  tbl.filter (fun p => decide (p.deleted_at = none))

/-- `getUnsyncedProducts()`: `WHERE sync_status = 'pending'`. -/
def getUnsyncedProducts (tbl : List Product) : List Product :=
  tbl.filter (fun p => decide (p.sync_status = .pending))

/-- `markProductAsSynced(id)`: sets only `sync_status`. -/
def markProductAsSynced (tbl : List Product) (i : String) : List Product :=
  tbl.map (fun p => if p.id = i then { p with sync_status := .synced } else p)

/-! ## Database client (`src/db/client.ts`)

The module-level mutable state (`sqliteDb`, `drizzleDb`, `isInitialized`,
`initializationPromise`) becomes an explicit record; connections are
abstracted to presence flags.  Initialization runs atomically to its
outcome (`migrationsOk` says whether `openDatabaseAsync` + `runMigrations`
succeed), so a stored promise is always a resolved one, and it is only
ever a successful one, because the catch handler nulls the promise on
failure. -/

/-- The module state of `db/client.ts`. -/
structure DBClient where
  sqliteDb : Bool
  drizzleDb : Bool
  isInitialized : Bool
  initializationPromise : Bool
deriving DecidableEq, Repr

/-- The state at module load: all singletons null / false. -/
def DBClient.initial : DBClient :=
  { sqliteDb := false, drizzleDb := false, isInitialized := false
    initializationPromise := false }

/-- `initializeDatabase()`: return the in-flight/stored promise if present;
return at once if already initialized; otherwise run open + migrations.
On success the flags are set (the promise is never cleared); on failure
the catch handler resets every singleton — `initializationPromise = null`,
`sqliteDb = drizzleDb = null`, `isInitialized = false` — and rethrows. -/
def initializeDatabase (st : DBClient) (migrationsOk : Bool) :
    DBClient × Except RepoError Unit :=
  if st.initializationPromise then (st, .ok ())
  else if st.isInitialized then (st, .ok ())
  else if migrationsOk then
    ({ sqliteDb := true, drizzleDb := true, isInitialized := true
       initializationPromise := true }, .ok ())
  else
    ({ sqliteDb := false, drizzleDb := false, isInitialized := false
       initializationPromise := false }, .error .InitFailed)

/-- `ensureDBReady()`: await an in-flight promise (already resolved in the
atomic model), then throw unless `isInitialized` and `drizzleDb` hold. -/
def ensureDBReady (st : DBClient) : Except RepoError Unit :=
  if st.isInitialized ∧ st.drizzleDb then .ok () else .error .NotReady

/-! ## Sales service (`src/services/sales.service.ts`) -/

/-- Service-layer `createSale(productId, quantity)`: validate
`quantity > 0`, fetch the active product, compute
`total = quantity * product.price` (JavaScript number arithmetic), and
call the repository `createSale`. -/
def serviceCreateSale (prods : List Product) (tbl : List Sale)
    (productId : String) (quantity : Int) (newId : String) (now : Nat) :
    List Sale × Except RepoError Sale :=
  if quantity ≤ 0 then (tbl, .error .ValidationError)
  else
    match getProductById prods productId false with
    | none => (tbl, .error .NotFound)
    | some product =>
        let total := fpMul (quantity : Rat) product.price
        createSale tbl newId
          { product_id := productId, quantity := quantity, total := total } now

/-! ## Reconciliation protocol (spec §4.4)

The source leaves synchronization as a stub (`syncSales` /
`syncProducts` log and `return 0`), so the cycle is modelled from the
spec. -/

/-- The per-record server verdict of the sync wire contract:
`accepted`, or `conflicting` with the server's copy of the record. -/
inductive SyncOutcome where
  | accepted
  | conflicting (serverRecord : Sale)
deriving DecidableEq, Repr

/-- Modelled from the spec: step 3/4 of §4.4 applied to one pending
record, the reconciliation protocol being absent from the source
(`syncSales` is a stub).  `accepted`: `markSynced(id)`, then the cleanup
step hard-deletes the record if it was in the deleted partition.
`conflicting`: the server's copy overwrites the local record's fields
(the id is immutable) and the merged record is immediately marked
synced. -/
def reconcileSaleOutcome (tbl : List Sale) (p : Sale) (o : SyncOutcome) : List Sale :=
  match o with
  | .accepted =>
      let t := markSaleAsSynced tbl p.id
      if p.deleted_at = none then t else hardDeleteSale t p.id
  | .conflicting sr =>
      tbl.map (fun s =>
        if s.id = p.id then
          { id := s.id, product_id := sr.product_id, quantity := sr.quantity
            total := sr.total, created_at := sr.created_at
            updated_at := sr.updated_at, deleted_at := sr.deleted_at
            sync_status := .synced }
        else s)

/-- Modelled from the spec: one full sync cycle for the sales entity —
collect the pending snapshot, transmit it, and apply the server's
per-record outcomes; the cycle is total and escalates no error. -/
def syncSalesCycle (tbl : List Sale) (respond : Sale → SyncOutcome) : List Sale :=
  (getUnsyncedSales tbl).foldl (fun t p => reconcileSaleOutcome t p (respond p)) tbl

/-- The record stored for a conflicting id once the server copy `sr` has
overwritten the local fields and the merge was marked synced. -/
def mergedRecord (i : String) (sr : Sale) : Sale :=
  { id := i, product_id := sr.product_id, quantity := sr.quantity
    total := sr.total, created_at := sr.created_at
    updated_at := sr.updated_at, deleted_at := sr.deleted_at
    sync_status := .synced }

/-! ## Evaluation lemmas for binary64 rounding -/

theorem roundHalfEven_up (q : ℚ) (n : ℤ) (hfl : ⌊q⌋ = n) (h : 1/2 < q - n) :
    roundHalfEven q = n + 1 := by
  rw [roundHalfEven]
  simp only [hfl]
  rw [if_neg (by linarith), if_pos h]

theorem toB64_eval (q : ℚ) (e n : ℤ) (hq : 0 < q)
    (hlog : Int.log 2 q = e)
    (hrnd : roundHalfEven (scale2 q (52 - e)) = n) :
    toB64 q = scale2 (n : ℚ) (e - 52) := by
  rw [toB64, if_neg (ne_of_gt hq), if_pos hq]
  simp only [toB64pos, hlog, hrnd]

/-- The binary64 value nearest `9.99`. -/
theorem toB64_999_div_100 :
    toB64 (999/100) = 5623870034678907/562949953421312 := by
  have hlog : Int.log 2 (999/100 : ℚ) = 3 := by
    have h9 : (⌊(999/100 : ℚ)⌋₊ : ℕ) = 9 := by
      rw [Nat.floor_eq_iff (by norm_num)]; constructor <;> norm_num
    have hl : Nat.log 2 9 = 3 := Nat.log_eq_of_pow_le_of_lt_pow (by norm_num) (by norm_num)
    rw [Int.log_of_one_le_right 2 (by norm_num), h9, hl]; rfl
  have hs : scale2 (999/100 : ℚ) (52 - 3) = 140596750866972672/25 := by
    rw [scale2, if_pos (by norm_num), show Int.toNat (52 - 3) = 49 from rfl]
    norm_num
  have hfl : (⌊(140596750866972672/25 : ℚ)⌋ : ℤ) = 5623870034678906 := by
    rw [Int.floor_eq_iff]; constructor <;> norm_num
  have hr : roundHalfEven (scale2 (999/100 : ℚ) (52 - 3)) = 5623870034678907 := by
    rw [hs, roundHalfEven_up _ 5623870034678906 hfl (by norm_num)]
    norm_num
  rw [toB64_eval (999/100) 3 5623870034678907 (by norm_num) hlog hr]
  rw [scale2, if_neg (by norm_num), show Int.toNat (-(3 - 52)) = 49 from rfl]
  norm_num

/-- Rounding the exact product `5 * toB64 9.99` to binary64. -/
theorem toB64_five_times :
    toB64 (28119350173394535/562949953421312) = 3514918771674317/70368744177664 := by
  have hlog : Int.log 2 (28119350173394535/562949953421312 : ℚ) = 5 := by
    have h49 : (⌊(28119350173394535/562949953421312 : ℚ)⌋₊ : ℕ) = 49 := by
      rw [Nat.floor_eq_iff (by norm_num)]; constructor <;> norm_num
    have hl : Nat.log 2 49 = 5 := Nat.log_eq_of_pow_le_of_lt_pow (by norm_num) (by norm_num)
    rw [Int.log_of_one_le_right 2 (by norm_num), h49, hl]; rfl
  have hs : scale2 (28119350173394535/562949953421312 : ℚ) (52 - 5) = 28119350173394535/4 := by
    rw [scale2, if_pos (by norm_num), show Int.toNat (52 - 5) = 47 from rfl]
    norm_num
  have hfl : (⌊(28119350173394535/4 : ℚ)⌋ : ℤ) = 7029837543348633 := by
    rw [Int.floor_eq_iff]; constructor <;> norm_num
  have hr : roundHalfEven (scale2 (28119350173394535/562949953421312 : ℚ) (52 - 5)) =
      7029837543348634 := by
    rw [hs, roundHalfEven_up _ 7029837543348633 hfl (by norm_num)]
    norm_num
  rw [toB64_eval _ 5 7029837543348634 (by norm_num) hlog hr]
  rw [scale2, if_neg (by norm_num), show Int.toNat (-(5 - 52)) = 47 from rfl]
  norm_num

/-- The binary64 value nearest `49.95`. -/
theorem toB64_4995_div_100 :
    toB64 (4995/100) = 3514918771674317/70368744177664 := by
  have hlog : Int.log 2 (4995/100 : ℚ) = 5 := by
    have h49 : (⌊(4995/100 : ℚ)⌋₊ : ℕ) = 49 := by
      rw [Nat.floor_eq_iff (by norm_num)]; constructor <;> norm_num
    have hl : Nat.log 2 49 = 5 := Nat.log_eq_of_pow_le_of_lt_pow (by norm_num) (by norm_num)
    rw [Int.log_of_one_le_right 2 (by norm_num), h49, hl]; rfl
  have hs : scale2 (4995/100 : ℚ) (52 - 5) = 35149187716743168/5 := by
    rw [scale2, if_pos (by norm_num), show Int.toNat (52 - 5) = 47 from rfl]
    norm_num
  have hfl : (⌊(35149187716743168/5 : ℚ)⌋ : ℤ) = 7029837543348633 := by
    rw [Int.floor_eq_iff]; constructor <;> norm_num
  have hr : roundHalfEven (scale2 (4995/100 : ℚ) (52 - 5)) = 7029837543348634 := by
    rw [hs, roundHalfEven_up _ 7029837543348633 hfl (by norm_num)]
    norm_num
  rw [toB64_eval _ 5 7029837543348634 (by norm_num) hlog hr]
  rw [scale2, if_neg (by norm_num), show Int.toNat (-(5 - 52)) = 47 from rfl]
  norm_num

/-- `5 * 9.99` in binary64 arithmetic is exactly the binary64 value of
`49.95`. -/
theorem fpMul_five_price : fpMul 5 (toB64 (999/100)) = toB64 (4995/100) := by
  rw [toB64_999_div_100, fpMul,
    show (5 : ℚ) * (5623870034678907/562949953421312) =
      28119350173394535/562949953421312 from by norm_num,
    toB64_five_times, toB64_4995_div_100]

/-! ## Concrete rows used to instantiate the theorems -/

def sampleSale : Sale :=
  { id := "s1", product_id := "p1", quantity := 2, total := 4
    created_at := 1, updated_at := 1, deleted_at := none, sync_status := .pending }

def sampleDeletedSale : Sale :=
  { id := "s2", product_id := "p1", quantity := 1, total := 2
    created_at := 1, updated_at := 2, deleted_at := some 2, sync_status := .pending }

def sampleSyncedSale : Sale :=
  { id := "s3", product_id := "p1", quantity := 1, total := 2
    created_at := 1, updated_at := 1, deleted_at := none, sync_status := .synced }

def sampleProduct : Product :=
  { id := "p1", name := "Widget", price := 10
    created_at := 1, updated_at := 1, deleted_at := none, sync_status := .pending }

def sampleSyncedProduct : Product :=
  { id := "p2", name := "Gadget", price := 5
    created_at := 1, updated_at := 1, deleted_at := none, sync_status := .synced }

/-! ## List helpers -/

theorem map_ite_id_of_no_match {α : Type} (l : List α) (P : α → Prop)
    [DecidablePred P] (f : α → α) (h : ∀ s ∈ l, ¬ P s) :
    l.map (fun s => if P s then f s else s) = l := by
  induction l with
  | nil => rfl
  | cons a t ih =>
      simp only [List.map_cons]
      rw [if_neg (h a (List.mem_cons_self a t)),
        ih (fun s hs => h s (List.mem_cons_of_mem a hs))]

/-! ## C6 -/

/-- C6: `getUnsyncedSales` / `getUnsyncedProducts` return exactly the
records with `sync_status = pending` — equivalently the union of active
pending records and soft-deleted pending records — and never a record
with `sync_status = synced`. -/
theorem getPending_exactly_pending (stbl : List Sale) (ptbl : List Product)
    (s : Sale) (p : Product) :
    (s ∈ getUnsyncedSales stbl ↔ s ∈ stbl ∧ s.sync_status = .pending) ∧
    (s ∈ getUnsyncedSales stbl ↔
      (s ∈ stbl ∧ s.sync_status = .pending ∧ s.deleted_at = none) ∨
      (s ∈ stbl ∧ s.sync_status = .pending ∧ s.deleted_at ≠ none)) ∧
    (s ∈ getUnsyncedSales stbl → s.sync_status ≠ .synced) ∧
    (p ∈ getUnsyncedProducts ptbl ↔ p ∈ ptbl ∧ p.sync_status = .pending) ∧
    (p ∈ getUnsyncedProducts ptbl → p.sync_status ≠ .synced) := by
  have hs : s ∈ getUnsyncedSales stbl ↔ s ∈ stbl ∧ s.sync_status = .pending := by
    simp [getUnsyncedSales, List.mem_filter]
  have hp : p ∈ getUnsyncedProducts ptbl ↔ p ∈ ptbl ∧ p.sync_status = .pending := by
    simp [getUnsyncedProducts, List.mem_filter]
  refine ⟨hs, ?_, ?_, hp, ?_⟩
  · rw [hs]
    by_cases hd : s.deleted_at = none <;> simp [hd]
  · intro hmem
    rw [(hs.mp hmem).2]
    simp
  · intro hmem
    rw [(hp.mp hmem).2]
    simp

/-- Instantiation of C6 at a concrete table. -/
theorem getPending_exactly_pending_witness :
    sampleSale ∈ getUnsyncedSales [sampleSale, sampleSyncedSale] ∧
    sampleSale.sync_status ≠ .synced := by
  have h := getPending_exactly_pending [sampleSale, sampleSyncedSale]
    [sampleProduct] sampleSale sampleProduct
  have hmem : sampleSale ∈ getUnsyncedSales [sampleSale, sampleSyncedSale] :=
    h.1.mpr ⟨by simp, rfl⟩
  exact ⟨hmem, h.2.2.1 hmem⟩

/-! ## C7 -/

/-- C7: `markSaleAsSynced` / `markProductAsSynced` set `sync_status =
synced` on the matched record and leave every other field of every
record — in particular `updated_at` — unchanged (rows are compared
positionally). -/
theorem markSynced_only_sync_status (stbl : List Sale) (ptbl : List Product)
    (i j : String) :
    List.Forall₂ (fun s t =>
      (s.id = i →
        t.id = s.id ∧ t.product_id = s.product_id ∧ t.quantity = s.quantity ∧
        t.total = s.total ∧ t.created_at = s.created_at ∧
        t.updated_at = s.updated_at ∧ t.deleted_at = s.deleted_at ∧
        t.sync_status = .synced) ∧
      (s.id ≠ i → t = s)) stbl (markSaleAsSynced stbl i) ∧
    List.Forall₂ (fun q t =>
      (q.id = j →
        t.id = q.id ∧ t.name = q.name ∧ t.price = q.price ∧
        t.created_at = q.created_at ∧ t.updated_at = q.updated_at ∧
        t.deleted_at = q.deleted_at ∧ t.sync_status = .synced) ∧
      (q.id ≠ j → t = q)) ptbl (markProductAsSynced ptbl j) := by
  constructor
  · rw [markSaleAsSynced, List.forall₂_map_right_iff, List.forall₂_same]
    intro s _
    by_cases h : s.id = i <;> simp [h]
  · rw [markProductAsSynced, List.forall₂_map_right_iff, List.forall₂_same]
    intro q _
    by_cases h : q.id = j <;> simp [h]

/-- Instantiation of C7 at a one-record table: the marked record keeps
its `updated_at` and only `sync_status` changes. -/
theorem markSynced_only_sync_status_witness :
    markSaleAsSynced [sampleSale] "s1" =
      [{ sampleSale with sync_status := .synced }] ∧
    ({ sampleSale with sync_status := .synced } : Sale).updated_at =
      sampleSale.updated_at := by
  have h := (markSynced_only_sync_status [sampleSale] [sampleProduct] "s1" "p1").1
  have he : markSaleAsSynced [sampleSale] "s1" =
      [{ sampleSale with sync_status := .synced }] := by
    simp [markSaleAsSynced, sampleSale]
  rw [he] at h
  have hr := (List.forall₂_cons.mp h).1
  exact ⟨he, (hr.1 rfl).2.2.2.2.2.1⟩

/-! ## C10 -/

/-- C10: on an id matching no row, `deleteSale`, `markSaleAsSynced` and
`hardDeleteSale` are silent no-ops — they complete without reaching any
throw site (each is a total function in this embedding, as in the source,
where these paths contain no `throw`) and leave the table unchanged. -/
theorem mutators_noop_on_missing_id (stbl : List Sale) (i : String) (now : Nat)
    (h : ∀ s ∈ stbl, s.id ≠ i) :
    deleteSale stbl i now = stbl ∧
    markSaleAsSynced stbl i = stbl ∧
    hardDeleteSale stbl i = stbl := by
  refine ⟨?_, ?_, ?_⟩
  · exact map_ite_id_of_no_match stbl (fun s => s.id = i) _ h
  · exact map_ite_id_of_no_match stbl (fun s => s.id = i) _ h
  · exact List.filter_eq_self.mpr (fun s hs => by simpa using h s hs)

/-- Instantiation of C10 at a concrete table and missing id. -/
theorem mutators_noop_on_missing_id_witness :
    deleteSale [sampleSale] "zz" 7 = [sampleSale] ∧
    markSaleAsSynced [sampleSale] "zz" = [sampleSale] ∧
    hardDeleteSale [sampleSale] "zz" = [sampleSale] :=
  mutators_noop_on_missing_id [sampleSale] "zz" 7 (by simp [sampleSale])

/-! ## Create on a fresh id -/

/-- The row a fresh-id `createSale` inserts and re-reads. -/
def newSaleRow (newId : String) (data : NewSaleData) (now : Nat) : Sale :=
  { id := newId, product_id := data.product_id, quantity := data.quantity
    total := data.total, created_at := now, updated_at := now
    deleted_at := none, sync_status := .pending }

/-- The row a fresh-id `createProduct` inserts and re-reads. -/
def newProductRow (newId : String) (data : NewProductData) (now : Nat) : Product :=
  { id := newId, name := data.name, price := data.price
    created_at := now, updated_at := now
    deleted_at := none, sync_status := .pending }

theorem createSale_ok (stbl : List Sale) (newId : String) (data : NewSaleData)
    (now : Nat) (h : ∀ s ∈ stbl, s.id ≠ newId) :
    createSale stbl newId data now =
      (stbl ++ [newSaleRow newId data now], .ok (newSaleRow newId data now)) := by
  rw [createSale, if_neg (by simp [List.any_eq_true]; exact fun s hs => h s hs)]
  have hf : (stbl ++ [newSaleRow newId data now]).filter
      (fun s => decide (s.id = newId)) = [newSaleRow newId data now] := by
    rw [List.filter_append, List.filter_eq_nil_iff.mpr (fun s hs => by simpa using h s hs)]
    simp [newSaleRow]
  simp only [newSaleRow] at hf
  simp [hf]
  rfl

theorem createProduct_ok (ptbl : List Product) (newId : String)
    (data : NewProductData) (now : Nat) (h : ∀ p ∈ ptbl, p.id ≠ newId) :
    createProduct ptbl newId data now =
      (ptbl ++ [newProductRow newId data now], .ok (newProductRow newId data now)) := by
  rw [createProduct, if_neg (by simp [List.any_eq_true]; exact fun p hp => h p hp)]
  have hf : (ptbl ++ [newProductRow newId data now]).filter
      (fun p => decide (p.id = newId)) = [newProductRow newId data now] := by
    rw [List.filter_append, List.filter_eq_nil_iff.mpr (fun p hp => by simpa using h p hp)]
    simp [newProductRow]
  simp only [newProductRow] at hf
  simp [hf]
  rfl

/-! ## C2 -/

/-- C2 counterexample: soft-deleting the same sale twice, at clock values
1 and then 2, changes the stored record between the first and the second
call — `deleted_at` and `updated_at` are re-stamped — so the claimed
idempotence over all fields fails. -/
theorem softDelete_twice_counterexample :
    getSaleById (deleteSale [sampleSale] "s1" 1) "s1" true =
      some { sampleSale with
             deleted_at := some 1
             updated_at := 1
             sync_status := .pending } ∧
    getSaleById (deleteSale (deleteSale [sampleSale] "s1" 1) "s1" 2) "s1" true =
      some { sampleSale with
             deleted_at := some 2
             updated_at := 2
             sync_status := .pending } ∧
    deleteSale (deleteSale [sampleSale] "s1" 1) "s1" 2 ≠
      deleteSale [sampleSale] "s1" 1 := by
  refine ⟨?_, ?_, ?_⟩ <;> simp [deleteSale, getSaleById, sampleSale]

/-- C2 amended: a second `softDelete` behaves exactly like a single
`softDelete` at the second call's clock value — the record stays
soft-deleted with `sync_status = pending`, but `deleted_at` and
`updated_at` are re-stamped; the observable state is unchanged precisely
when both calls read the same clock value. -/
theorem softDelete_second_restamps (stbl : List Sale) (ptbl : List Product)
    (i : String) (t₁ t₂ : Nat) :
    deleteSale (deleteSale stbl i t₁) i t₂ = deleteSale stbl i t₂ ∧
    deleteSale (deleteSale stbl i t₁) i t₁ = deleteSale stbl i t₁ ∧
    deleteProduct (deleteProduct ptbl i t₁) i t₂ = deleteProduct ptbl i t₂ ∧
    deleteProduct (deleteProduct ptbl i t₁) i t₁ = deleteProduct ptbl i t₁ := by
  have hs : ∀ t : Nat, deleteSale (deleteSale stbl i t₁) i t = deleteSale stbl i t := by
    intro t
    rw [deleteSale, deleteSale, deleteSale, List.map_map]
    apply List.map_congr_left
    intro s _
    by_cases h : s.id = i <;> simp [h]
  have hp : ∀ t : Nat,
      deleteProduct (deleteProduct ptbl i t₁) i t = deleteProduct ptbl i t := by
    intro t
    rw [deleteProduct, deleteProduct, deleteProduct, List.map_map]
    apply List.map_congr_left
    intro p _
    by_cases h : p.id = i <;> simp [h]
  exact ⟨hs t₂, hs t₁, hp t₂, hp t₁⟩

/-! ## C3 -/

/-- C3 counterexample: a failed initialization is not terminal — after
`initializeDatabase` fails, `ensureDBReady` does fail, but the failure
handler has reset the module state, and a second in-process
`initializeDatabase` call whose open/migration step succeeds brings the
engine to ready, after which `ensureDBReady` succeeds again. -/
theorem initFail_retry_counterexample :
    (initializeDatabase DBClient.initial false).2 = .error .InitFailed ∧
    ensureDBReady (initializeDatabase DBClient.initial false).1 = .error .NotReady ∧
    (initializeDatabase (initializeDatabase DBClient.initial false).1 true).2 =
      .ok () ∧
    ensureDBReady
      (initializeDatabase (initializeDatabase DBClient.initial false).1 true).1 =
      .ok () :=
  ⟨rfl, rfl, rfl, rfl⟩

/-- C3 amended: after `initializeDatabase` fails, every `ensureDBReady`
on the resulting state fails with the not-ready error, but the failed
state is not terminal: the catch handler resets the module state so that
a repeated `initializeDatabase` call retries, and a successful retry
returns the engine to ready without a process restart. -/
theorem initFail_not_terminal (st : DBClient)
    (h : (initializeDatabase st false).2 = .error .InitFailed) :
    ensureDBReady (initializeDatabase st false).1 = .error .NotReady ∧
    (initializeDatabase (initializeDatabase st false).1 true).2 = .ok () ∧
    ensureDBReady
      (initializeDatabase (initializeDatabase st false).1 true).1 = .ok () := by
  rcases st with ⟨sq, dz, ini, pr⟩
  cases pr <;> cases ini <;>
    simp_all [initializeDatabase, ensureDBReady]

/-- Instantiation of C3 (amended) at the module-load state. -/
theorem initFail_not_terminal_witness :
    ensureDBReady (initializeDatabase DBClient.initial false).1 =
      .error .NotReady ∧
    (initializeDatabase (initializeDatabase DBClient.initial false).1 true).2 =
      .ok () ∧
    ensureDBReady
      (initializeDatabase (initializeDatabase DBClient.initial false).1 true).1 =
      .ok () :=
  initFail_not_terminal DBClient.initial rfl

/-! ## C4 -/

/-- C4: every mutating repository operation — create, update, soft-delete,
for both entities — leaves the affected record with
`sync_status = pending` and `updated_at` stamped to the operation's clock
value, which is `≥` the record's previous `updated_at` whenever the clock
has not moved backwards. -/
theorem mutations_set_pending_and_refresh (stbl : List Sale) (ptbl : List Product)
    (i newId : String) (sdata : NewSaleData) (pdata : NewProductData)
    (sd : SaleUpdateData) (pd : ProductUpdateData) (now : Nat) :
    (∀ r, (createSale stbl newId sdata now).2 = .ok r →
      r.sync_status = .pending ∧ r.updated_at = now) ∧
    List.Forall₂ (fun s t => s.id = i →
        t.sync_status = .pending ∧ t.updated_at = now ∧
        (s.updated_at ≤ now → s.updated_at ≤ t.updated_at))
      stbl (updateSale stbl i sd now).1 ∧
    List.Forall₂ (fun s t => s.id = i →
        t.sync_status = .pending ∧ t.updated_at = now ∧
        (s.updated_at ≤ now → s.updated_at ≤ t.updated_at))
      stbl (deleteSale stbl i now) ∧
    (∀ r, (createProduct ptbl newId pdata now).2 = .ok r →
      r.sync_status = .pending ∧ r.updated_at = now) ∧
    List.Forall₂ (fun p t => p.id = i →
        t.sync_status = .pending ∧ t.updated_at = now ∧
        (p.updated_at ≤ now → p.updated_at ≤ t.updated_at))
      ptbl (updateProduct ptbl i pd now).1 ∧
    List.Forall₂ (fun p t => p.id = i →
        t.sync_status = .pending ∧ t.updated_at = now ∧
        (p.updated_at ≤ now → p.updated_at ≤ t.updated_at))
      ptbl (deleteProduct ptbl i now) := by
  refine ⟨?_, ?_, ?_, ?_, ?_, ?_⟩
  · intro r hr
    by_cases hc : stbl.any (fun s => decide (s.id = newId)) = true
    · rw [createSale, if_pos hc] at hr
      simp at hr
    · have hfresh : ∀ s ∈ stbl, s.id ≠ newId := by
        simpa [List.any_eq_true] using hc
      rw [createSale_ok stbl newId sdata now hfresh] at hr
      simp at hr
      rw [← hr]
      exact ⟨rfl, rfl⟩
  · rw [updateSale, List.forall₂_map_right_iff, List.forall₂_same]
    intro s _ hid
    simp [hid, Sale.applyUpdate]
  · rw [deleteSale, List.forall₂_map_right_iff, List.forall₂_same]
    intro s _ hid
    simp [hid]
  · intro r hr
    by_cases hc : ptbl.any (fun p => decide (p.id = newId)) = true
    · rw [createProduct, if_pos hc] at hr
      simp at hr
    · have hfresh : ∀ p ∈ ptbl, p.id ≠ newId := by
        simpa [List.any_eq_true] using hc
      rw [createProduct_ok ptbl newId pdata now hfresh] at hr
      simp at hr
      rw [← hr]
      exact ⟨rfl, rfl⟩
  · rw [updateProduct, List.forall₂_map_right_iff, List.forall₂_same]
    intro p _ hid
    simp [hid, Product.applyUpdate]
  · rw [deleteProduct, List.forall₂_map_right_iff, List.forall₂_same]
    intro p _ hid
    simp [hid]

/-- Instantiation of C4: the record created by a concrete `createSale`
carries `sync_status = pending` and `updated_at` equal to the creation
clock value. -/
theorem mutations_set_pending_and_refresh_witness :
    (newSaleRow "n1" ⟨"p1", 1, 10⟩ 5).sync_status = .pending ∧
    (newSaleRow "n1" ⟨"p1", 1, 10⟩ 5).updated_at = 5 :=
  (mutations_set_pending_and_refresh [] [] "s1" "n1" ⟨"p1", 1, 10⟩
      ⟨"Widget", 10⟩ ⟨none, none, none, none, none⟩ ⟨none, none, none, none⟩ 5).1
    (newSaleRow "n1" ⟨"p1", 1, 10⟩ 5)
    (by rw [createSale_ok [] "n1" ⟨"p1", 1, 10⟩ 5 (by simp)])

/-! ## C5 -/

/-- C5: with a fresh generated id, `createSale` / `createProduct` persist
the new record and return it as re-read from the stored table (whatever
`ok` value the call returns is exactly what the strict `getById` re-read
yields); immediately afterwards `getById` on the generated id returns a
record whose visible fields are the input fields plus the generated id,
the creation timestamps, `deleted_at = null` and `sync_status = pending`. -/
theorem create_roundtrip (stbl : List Sale) (ptbl : List Product)
    (sdata : NewSaleData) (pdata : NewProductData) (newId pid : String) (now : Nat)
    (hs : ∀ s ∈ stbl, s.id ≠ newId) (hp : ∀ p ∈ ptbl, p.id ≠ pid) :
    (createSale stbl newId sdata now).2 = .ok (newSaleRow newId sdata now) ∧
    getSaleById (createSale stbl newId sdata now).1 newId false =
      some (newSaleRow newId sdata now) ∧
    (∀ r, (createSale stbl newId sdata now).2 = .ok r →
      getSaleById (createSale stbl newId sdata now).1 newId false = some r) ∧
    (newSaleRow newId sdata now).id = newId ∧
    (newSaleRow newId sdata now).product_id = sdata.product_id ∧
    (newSaleRow newId sdata now).quantity = sdata.quantity ∧
    (newSaleRow newId sdata now).total = sdata.total ∧
    (newSaleRow newId sdata now).created_at = now ∧
    (newSaleRow newId sdata now).updated_at = now ∧
    (newSaleRow newId sdata now).deleted_at = none ∧
    (newSaleRow newId sdata now).sync_status = .pending ∧
    (createProduct ptbl pid pdata now).2 = .ok (newProductRow pid pdata now) ∧
    getProductById (createProduct ptbl pid pdata now).1 pid false =
      some (newProductRow pid pdata now) ∧
    (newProductRow pid pdata now).name = pdata.name ∧
    (newProductRow pid pdata now).price = pdata.price ∧
    (newProductRow pid pdata now).deleted_at = none ∧
    (newProductRow pid pdata now).sync_status = .pending := by
  have hok := createSale_ok stbl newId sdata now hs
  have hokp := createProduct_ok ptbl pid pdata now hp
  have hread : getSaleById (createSale stbl newId sdata now).1 newId false =
      some (newSaleRow newId sdata now) := by
    rw [hok]
    have h0 : stbl.filter
        (fun s => decide (s.id = newId ∧ s.deleted_at = none)) = [] :=
      List.filter_eq_nil_iff.mpr (fun s hsm => by
        simp only [decide_eq_true_eq, not_and]
        intro he
        exact absurd he (hs s hsm))
    rw [getSaleById]
    simp only [Bool.false_eq_true, if_false]
    rw [List.filter_append, h0, List.nil_append]
    simp [newSaleRow]
  have hreadp : getProductById (createProduct ptbl pid pdata now).1 pid false =
      some (newProductRow pid pdata now) := by
    rw [hokp]
    have h0 : ptbl.filter
        (fun p => decide (p.id = pid ∧ p.deleted_at = none)) = [] :=
      List.filter_eq_nil_iff.mpr (fun p hpm => by
        simp only [decide_eq_true_eq, not_and]
        intro he
        exact absurd he (hp p hpm))
    rw [getProductById]
    simp only [Bool.false_eq_true, if_false]
    rw [List.filter_append, h0, List.nil_append]
    simp [newProductRow]
  refine ⟨by rw [hok], hread, ?_, rfl, rfl, rfl, rfl, rfl, rfl, rfl, rfl,
    by rw [hokp], hreadp, rfl, rfl, rfl, rfl⟩
  intro r hr
  rw [hok] at hr
  simp at hr
  rw [← hr]
  exact hread

/-- Instantiation of C5 at an empty table and a concrete input. -/
theorem create_roundtrip_witness :
    (createSale [] "n1" ⟨"p1", 2, 10⟩ 5).2 = .ok (newSaleRow "n1" ⟨"p1", 2, 10⟩ 5) ∧
    getSaleById (createSale [] "n1" ⟨"p1", 2, 10⟩ 5).1 "n1" false =
      some (newSaleRow "n1" ⟨"p1", 2, 10⟩ 5) := by
  have h := create_roundtrip [] [] ⟨"p1", 2, 10⟩ ⟨"Widget", 10⟩ "n1" "q1" 5
    (by simp) (by simp)
  exact ⟨h.1, h.2.1⟩

/-! ## C1 -/

/-- C1 counterexample: updating a soft-deleted sale fails with the
not-found error, but the stored state is mutated by the failed call — the
unguarded `UPDATE ... WHERE id = ?` has already merged the fields and
re-stamped `updated_at` / `sync_status` on the soft-deleted row before
the strict re-read throws. -/
theorem update_softDeleted_mutates_counterexample :
    (updateSale [sampleDeletedSale] "s2" ⟨none, some 5, none, none, none⟩ 9).2 =
      .error .NotFound ∧
    (updateSale [sampleDeletedSale] "s2" ⟨none, some 5, none, none, none⟩ 9).1 ≠
      [sampleDeletedSale] := by
  constructor <;>
    simp [updateSale, getSaleById, Sale.applyUpdate, sampleDeletedSale]

/-- C1 amended: `updateSale` / `updateProduct` fail with `NotFound`
whenever no active record matches the id.  If the id matches no row at
all, the stored state is unchanged by the failed call; but if the id
matches only soft-deleted rows, the failed call still applies the update
to those rows (fields merged, `updated_at` re-stamped, `sync_status`
reset to `pending`) before failing. -/
theorem update_notFound (stbl : List Sale) (ptbl : List Product) (i : String)
    (sd : SaleUpdateData) (pd : ProductUpdateData) (now : Nat) :
    ((∀ s ∈ stbl, s.id ≠ i) →
      (updateSale stbl i sd now).2 = .error .NotFound ∧
      (updateSale stbl i sd now).1 = stbl) ∧
    ((∀ s ∈ stbl, s.id = i → s.deleted_at ≠ none) →
      (updateSale stbl i sd now).2 = .error .NotFound ∧
      List.Forall₂ (fun s t =>
          (s.id ≠ i → t = s) ∧ (s.id = i → t = s.applyUpdate sd now))
        stbl (updateSale stbl i sd now).1) ∧
    ((∀ p ∈ ptbl, p.id ≠ i) →
      (updateProduct ptbl i pd now).2 = .error .NotFound ∧
      (updateProduct ptbl i pd now).1 = ptbl) ∧
    ((∀ p ∈ ptbl, p.id = i → p.deleted_at ≠ none) →
      (updateProduct ptbl i pd now).2 = .error .NotFound ∧
      List.Forall₂ (fun p t =>
          (p.id ≠ i → t = p) ∧ (p.id = i → t = p.applyUpdate pd now))
        ptbl (updateProduct ptbl i pd now).1) := by
  refine ⟨?_, ?_, ?_, ?_⟩
  · intro h
    have hmap : stbl.map (fun s => if s.id = i then s.applyUpdate sd now else s) =
        stbl := map_ite_id_of_no_match stbl (fun s => s.id = i) _ h
    have hget : getSaleById stbl i false = none := by
      rw [getSaleById]
      simp only [Bool.false_eq_true, if_false]
      rw [List.filter_eq_nil_iff.mpr (fun s hsm => by
        simp only [decide_eq_true_eq, not_and]
        intro he
        exact absurd he (h s hsm))]
      rfl
    rw [updateSale]
    simp [hmap, hget]
  · intro h
    have hget : getSaleById
        (stbl.map (fun s => if s.id = i then s.applyUpdate sd now else s))
        i false = none := by
      rw [getSaleById]
      simp only [Bool.false_eq_true, if_false]
      rw [List.filter_eq_nil_iff.mpr ?_]
      · rfl
      · intro t htm
        rw [List.mem_map] at htm
        obtain ⟨s, hsm, rfl⟩ := htm
        by_cases hid : s.id = i
        · simp [hid, Sale.applyUpdate, h s hsm hid]
        · simp [hid]
    constructor
    · rw [updateSale]
      simp [hget]
    · rw [updateSale]
      simp only
      rw [List.forall₂_map_right_iff, List.forall₂_same]
      intro s _
      constructor
      · intro hid
        rw [if_neg hid]
      · intro hid
        rw [if_pos hid]
  · intro h
    have hmap : ptbl.map (fun p => if p.id = i then p.applyUpdate pd now else p) =
        ptbl := map_ite_id_of_no_match ptbl (fun p => p.id = i) _ h
    have hget : getProductById ptbl i false = none := by
      rw [getProductById]
      simp only [Bool.false_eq_true, if_false]
      rw [List.filter_eq_nil_iff.mpr (fun p hpm => by
        simp only [decide_eq_true_eq, not_and]
        intro he
        exact absurd he (h p hpm))]
      rfl
    rw [updateProduct]
    simp [hmap, hget]
  · intro h
    have hget : getProductById
        (ptbl.map (fun p => if p.id = i then p.applyUpdate pd now else p))
        i false = none := by
      rw [getProductById]
      simp only [Bool.false_eq_true, if_false]
      rw [List.filter_eq_nil_iff.mpr ?_]
      · rfl
      · intro t htm
        rw [List.mem_map] at htm
        obtain ⟨p, hpm, rfl⟩ := htm
        by_cases hid : p.id = i
        · simp [hid, Product.applyUpdate, h p hpm hid]
        · simp [hid]
    constructor
    · rw [updateProduct]
      simp [hget]
    · rw [updateProduct]
      simp only
      rw [List.forall₂_map_right_iff, List.forall₂_same]
      intro p _
      constructor
      · intro hid
        rw [if_neg hid]
      · intro hid
        rw [if_pos hid]

/-- Instantiation of C1 (amended) at a missing id: the call fails with
`NotFound` and leaves the table unchanged. -/
theorem update_notFound_witness :
    (updateSale [sampleSale] "zz" ⟨none, some 5, none, none, none⟩ 9).2 =
      .error .NotFound ∧
    (updateSale [sampleSale] "zz" ⟨none, some 5, none, none, none⟩ 9).1 =
      [sampleSale] :=
  (update_notFound [sampleSale] [] "zz" ⟨none, some 5, none, none, none⟩
      ⟨none, none, none, none⟩ 9).1 (by simp [sampleSale])

/-! ## Lookup lemmas for the reconciliation cycle -/

theorem filter_map_pres_id (l : List Sale) (g : Sale → Sale)
    (hg : ∀ s, (g s).id = s.id) (i : String) :
    (l.map g).filter (fun s => decide (s.id = i)) =
      (l.filter (fun s => decide (s.id = i))).map g := by
  rw [List.filter_map]
  congr 1
  apply List.filter_congr
  intro s _
  simp [Function.comp, hg s]

theorem lookup_map_ite_ne (t : List Sale) (j i : String) (f : Sale → Sale)
    (hf : ∀ s, (f s).id = s.id) (hne : j ≠ i) :
    getSaleById (t.map (fun s => if s.id = j then f s else s)) i true =
      getSaleById t i true := by
  show ((t.map _).filter _).head? = (t.filter _).head?
  rw [filter_map_pres_id t _ (fun s => by by_cases h : s.id = j <;> simp [h, hf s]) i]
  have h1 : ∀ s ∈ t.filter (fun s => decide (s.id = i)),
      (if s.id = j then f s else s) = id s := by
    intro s hs
    have hid : s.id = i := by simpa using (List.mem_filter.mp hs).2
    rw [if_neg (by rw [hid]; exact fun he => hne he.symm)]
    rfl
  rw [List.map_congr_left h1, List.map_id]

theorem lookup_filter_ne (t : List Sale) (j i : String) (hne : j ≠ i) :
    getSaleById (t.filter (fun s => decide (s.id ≠ j))) i true =
      getSaleById t i true := by
  show ((t.filter _).filter _).head? = (t.filter _).head?
  rw [List.filter_filter]
  congr 1
  apply List.filter_congr
  intro s _
  by_cases h : s.id = i
  · simp [h, Ne.symm hne]
  · simp [h]

theorem reconcile_frame (t : List Sale) (q : Sale) (o : SyncOutcome) (i : String)
    (h : q.id ≠ i) :
    getSaleById (reconcileSaleOutcome t q o) i true = getSaleById t i true := by
  cases o with
  | accepted =>
      have ha : reconcileSaleOutcome t q .accepted =
          (if q.deleted_at = none then markSaleAsSynced t q.id
           else hardDeleteSale (markSaleAsSynced t q.id) q.id) := rfl
      rw [ha]
      by_cases hd : q.deleted_at = none
      · rw [if_pos hd, markSaleAsSynced]
        exact lookup_map_ite_ne t q.id i _ (fun s => rfl) h
      · rw [if_neg hd, hardDeleteSale, markSaleAsSynced,
          lookup_filter_ne _ q.id i h]
        exact lookup_map_ite_ne t q.id i _ (fun s => rfl) h
  | conflicting sr =>
      have hcf : reconcileSaleOutcome t q (.conflicting sr) =
          t.map (fun s =>
            if s.id = q.id then
              { id := s.id, product_id := sr.product_id, quantity := sr.quantity
                total := sr.total, created_at := sr.created_at
                updated_at := sr.updated_at, deleted_at := sr.deleted_at
                sync_status := .synced }
            else s) := rfl
      rw [hcf]
      exact lookup_map_ite_ne t q.id i _ (fun s => rfl) h

theorem foldl_frame (respond : Sale → SyncOutcome) (i : String) :
    ∀ (l : List Sale) (t : List Sale), (∀ q ∈ l, q.id ≠ i) →
      getSaleById
        (l.foldl (fun t q => reconcileSaleOutcome t q (respond q)) t) i true =
      getSaleById t i true := by
  intro l
  induction l with
  | nil => intro t _; rfl
  | cons a l ih =>
      intro t h
      rw [List.foldl_cons, ih _ (fun q hq => h q (List.mem_cons_of_mem a hq))]
      exact reconcile_frame t a (respond a) i (h a (List.mem_cons_self a l))

theorem reconcile_set (t : List Sale) (p : Sale) (sr : Sale) (r : Sale)
    (hr : getSaleById t p.id true = some r) :
    getSaleById (reconcileSaleOutcome t p (.conflicting sr)) p.id true =
      some (mergedRecord p.id sr) := by
  show ((t.map _).filter _).head? = _
  rw [filter_map_pres_id t _ (fun s => by by_cases h : s.id = p.id <;> simp [h]) p.id]
  have hr' : (t.filter (fun s => decide (s.id = p.id))).head? = some r := hr
  rw [List.head?_map, hr']
  have hmem : r ∈ t.filter (fun s => decide (s.id = p.id)) :=
    List.mem_of_mem_head? (by rw [hr']; rfl)
  have hid : r.id = p.id := by simpa using (List.mem_filter.mp hmem).2
  simp [hid, mergedRecord]

theorem foldl_conflict (respond : Sale → SyncOutcome) (sr : Sale) (p : Sale) :
    ∀ (l : List Sale) (t : List Sale), (l.map Sale.id).Nodup → p ∈ l →
      respond p = .conflicting sr →
      (∃ r, getSaleById t p.id true = some r) →
      getSaleById
        (l.foldl (fun t q => reconcileSaleOutcome t q (respond q)) t) p.id true =
      some (mergedRecord p.id sr) := by
  intro l
  induction l with
  | nil =>
      intro t _ hmem
      cases hmem
  | cons a l ih =>
      intro t hnodup hmem hresp hex
      have hnd : a.id ∉ l.map Sale.id ∧ (l.map Sale.id).Nodup := by
        rw [List.map_cons] at hnodup
        exact List.nodup_cons.mp hnodup
      rw [List.foldl_cons]
      rcases List.mem_cons.mp hmem with rfl | hmem'
      · obtain ⟨r, hr⟩ := hex
        have hne : ∀ q ∈ l, q.id ≠ p.id := by
          intro q hq hqe
          exact hnd.1 (List.mem_map.mpr ⟨q, hq, hqe⟩)
        rw [hresp, foldl_frame respond p.id l _ hne]
        exact reconcile_set t p sr r hr
      · have hane : a.id ≠ p.id := by
          intro he
          exact hnd.1 (he ▸ List.mem_map.mpr ⟨p, hmem', rfl⟩)
        obtain ⟨r, hr⟩ := hex
        exact ih _ hnd.2 hmem' hresp
          ⟨r, by rw [reconcile_frame t a (respond a) p.id hane]; exact hr⟩

/-! ## C8 -/

/-- C8 (modelled from the spec, the source leaving sync a stub): in a
reconciliation cycle over a table with unique ids, every pending record
the server reports as `conflicting` (holding a copy with strictly later
`updated_at`) ends the cycle overwritten by the server's copy and marked
synced; the cycle is a total function — no error is escalated to the
caller — and the record is not re-transmitted (the cycle sends one batch
and applies each outcome exactly once). -/
theorem syncCycle_conflict_overwrites (tbl : List Sale)
    (respond : Sale → SyncOutcome) (p sr : Sale)
    (hnodup : (tbl.map Sale.id).Nodup)
    (hp : p ∈ getUnsyncedSales tbl)
    (hc : respond p = .conflicting sr)
    (hlww : p.updated_at < sr.updated_at) :
    getSaleById (syncSalesCycle tbl respond) p.id true =
      some (mergedRecord p.id sr) ∧
    (mergedRecord p.id sr).sync_status = .synced ∧
    (mergedRecord p.id sr).product_id = sr.product_id ∧
    (mergedRecord p.id sr).quantity = sr.quantity ∧
    (mergedRecord p.id sr).total = sr.total ∧
    (mergedRecord p.id sr).deleted_at = sr.deleted_at ∧
    (mergedRecord p.id sr).updated_at = sr.updated_at := by
  refine ⟨?_, rfl, rfl, rfl, rfl, rfl, rfl⟩
  rw [syncSalesCycle]
  have hpt : p ∈ tbl := (List.mem_filter.mp hp).1
  have hmemf : p ∈ tbl.filter (fun s => decide (s.id = p.id)) :=
    List.mem_filter.mpr ⟨hpt, by simp⟩
  have hex : ∃ r, getSaleById tbl p.id true = some r := by
    cases hfl : tbl.filter (fun s => decide (s.id = p.id)) with
    | nil => rw [hfl] at hmemf; cases hmemf
    | cons x xs => exact ⟨x, show (tbl.filter _).head? = _ by rw [hfl]; rfl⟩
  exact foldl_conflict respond sr p (getUnsyncedSales tbl) tbl
    (hnodup.sublist (List.Sublist.map _ (List.filter_sublist tbl))) hp hc hex

/-- A server copy of `sampleSale` with a strictly later `updated_at`. -/
def serverSale : Sale :=
  { id := "s1", product_id := "p1", quantity := 7, total := 70
    created_at := 1, updated_at := 9, deleted_at := none, sync_status := .pending }

/-- Instantiation of C8 at a one-record table whose only pending record
conflicts. -/
theorem syncCycle_conflict_overwrites_witness :
    getSaleById (syncSalesCycle [sampleSale] (fun _ => .conflicting serverSale))
      sampleSale.id true = some (mergedRecord sampleSale.id serverSale) ∧
    sampleSale.updated_at < serverSale.updated_at :=
  ⟨(syncCycle_conflict_overwrites [sampleSale] (fun _ => .conflicting serverSale)
      sampleSale serverSale (by simp)
      (by simp [getUnsyncedSales, sampleSale]) rfl (by decide)).1,
   by decide⟩

/-! ## C9 -/

/-- A product whose stored price is the binary64 value of `9.99`. -/
def sampleProduct999 : Product :=
  { id := "p9", name := "Widget", price := toB64 (999/100)
    created_at := 1, updated_at := 1, deleted_at := none, sync_status := .pending }

/-- C9: a service-layer `createSale` against an existing active product
stores `total = quantity * product.price` computed in binary64 double
precision; in particular, with stored price the binary64 value of `9.99`
and quantity `5`, the stored total is exactly the binary64 value of
`49.95`. -/
theorem serviceCreateSale_total_exact (prods : List Product) (stbl : List Sale)
    (pid newId : String) (now : Nat) (product : Product)
    (hp : getProductById prods pid false = some product)
    (hfresh : ∀ s ∈ stbl, s.id ≠ newId) :
    (∀ q : Int, 0 < q →
      (serviceCreateSale prods stbl pid q newId now).2 =
        .ok (newSaleRow newId ⟨pid, q, fpMul (q : Rat) product.price⟩ now) ∧
      (newSaleRow newId ⟨pid, q, fpMul (q : Rat) product.price⟩ now).total =
        fpMul (q : Rat) product.price) ∧
    (product.price = toB64 (999/100) →
      (serviceCreateSale prods stbl pid 5 newId now).2 =
        .ok (newSaleRow newId ⟨pid, 5, toB64 (4995/100)⟩ now)) := by
  have hgen : ∀ q : Int, 0 < q →
      (serviceCreateSale prods stbl pid q newId now).2 =
        .ok (newSaleRow newId ⟨pid, q, fpMul (q : Rat) product.price⟩ now) := by
    intro q hq
    rw [serviceCreateSale, if_neg (by omega), hp]
    simp only
    rw [createSale_ok stbl newId ⟨pid, q, fpMul (q : Rat) product.price⟩ now hfresh]
  refine ⟨fun q hq => ⟨hgen q hq, rfl⟩, fun hprice => ?_⟩
  rw [hgen 5 (by norm_num)]
  rw [show ((5 : Int) : Rat) = 5 from by norm_num, hprice, fpMul_five_price]

/-- Instantiation of C9: price `9.99` (as stored in binary64), quantity
`5`, stored total exactly the binary64 value of `49.95`. -/
theorem serviceCreateSale_total_exact_witness :
    (serviceCreateSale [sampleProduct999] [] "p9" 5 "n9" 3).2 =
      .ok (newSaleRow "n9" ⟨"p9", 5, toB64 (4995/100)⟩ 3) :=
  (serviceCreateSale_total_exact [sampleProduct999] [] "p9" "n9" 3
      sampleProduct999
      (by simp [getProductById, sampleProduct999]) (by simp)).2 rfl

end Artizan
